import Mathlib

/-!
Verification development for the `firebird-assistant` repository.

Each definition below is a shallow embedding of a function from the Python
sources (`src/firebird_assistant/*.py`), translated as follows:

* Python strings are `String` / `List Char`; character classes such as the
  regex `\s` and `str.strip`'s whitespace set are modelled over their ASCII
  range (all inputs the claims are about are ASCII).
* Python `None` / optional values become `Option`; raised exceptions become
  `Except` errors or `Option.none` oracle results.
* Effectful boundaries (the filesystem, the two client libraries, the
  database server) are modelled as explicit environment records whose
  fields give the outcome of each external call.
-/

namespace FirebirdAssistant

/-- Whitespace as recognized by Python's `str.strip()` and the regex class
`\s`, restricted to the ASCII range: space, tab, newline, carriage return,
vertical tab and form feed. -/
def pySpace (c : Char) : Bool :=
  c == ' ' || c == '\t' || c == '\n' || c == '\r' || c == '\x0b' || c == '\x0c'

/-- Python `str.lstrip()` on a character list. -/
def stripLeft (l : List Char) : List Char := l.dropWhile pySpace

/-- Python `str.rstrip()` on a character list. -/
def stripRight (l : List Char) : List Char := (l.reverse.dropWhile pySpace).reverse

/-- Python `str.strip()` on a character list. -/
def pyStrip (l : List Char) : List Char := stripRight (stripLeft l)

/-- Test whether `pat` occurs at the head of `s` (Python `str.startswith`). -/
def litHere : List Char → List Char → Bool
  | [], _ => true
  | _ :: _, [] => false
  | p :: ps, c :: cs => p == c && litHere ps cs

/-- Test whether `pat` occurs anywhere in `s` (Python `pat in s`). -/
def hasSub (pat : List Char) : List Char → Bool
  | [] => litHere pat []
  | c :: cs => litHere pat (c :: cs) || hasSub pat cs

theorem litHere_iff (pat s : List Char) : litHere pat s = true ↔ ∃ t, s = pat ++ t := by
  induction pat generalizing s with
  | nil => simp [litHere]
  | cons p ps ih =>
    cases s with
    | nil => simp [litHere]
    | cons c cs =>
      simp only [litHere, Bool.and_eq_true, beq_iff_eq, ih, List.cons_append,
        List.cons.injEq]
      constructor
      · rintro ⟨rfl, t, rfl⟩; exact ⟨t, rfl, rfl⟩
      · rintro ⟨t, rfl, rfl⟩; exact ⟨rfl, t, rfl⟩

theorem hasSub_iff (pat s : List Char) :
    hasSub pat s = true ↔ ∃ a b, s = a ++ pat ++ b := by
  induction s with
  | nil =>
    simp only [hasSub, litHere_iff]
    constructor
    · rintro ⟨t, ht⟩
      exact ⟨[], t, by simpa using ht⟩
    · rintro ⟨a, b, hab⟩
      obtain ⟨ha, hp, hb⟩ : a = [] ∧ pat = [] ∧ b = [] := by simpa using hab.symm
      exact ⟨[], by simp [hp]⟩
  | cons c cs ih =>
    simp only [hasSub, Bool.or_eq_true, litHere_iff, ih]
    constructor
    · rintro (⟨t, ht⟩ | ⟨a, b, hab⟩)
      · exact ⟨[], t, by simpa using ht⟩
      · exact ⟨c :: a, b, by simp [hab]⟩
    · rintro ⟨a, b, hab⟩
      cases a with
      | nil => exact Or.inl ⟨b, by simpa using hab⟩
      | cons a0 as =>
        right
        refine ⟨as, b, ?_⟩
        have := (List.cons.injEq c cs a0 (as ++ pat ++ b)).mp (by simpa using hab)
        exact this.2

/-- `connection._is_25`: classify a server version string as Firebird 2.5.
Source: `vs = version_str.strip().lower(); return vs.startswith("2.5") or
"firebird 2.5" in vs or "wi-v2.5" in vs`. -/
def _is_25 (version_str : String) : Bool :=
  let vs := (pyStrip version_str.data).map Char.toLower
  litHere "2.5".data vs || hasSub "firebird 2.5".data vs || hasSub "wi-v2.5".data vs

/-- C4: `_is_25` returns true exactly when the trimmed, lower-cased version
string starts with `2.5` or contains `firebird 2.5` or contains `wi-v2.5`;
it classifies "2.5.9", "Firebird 2.5" and "WI-V2.5.9" as 2.5 and does not
classify "3.0.10" as 2.5. -/
theorem is_25_characterization :
    (∀ s : String,
      _is_25 s = true ↔
        ((∃ t, (pyStrip s.data).map Char.toLower = "2.5".data ++ t) ∨
         (∃ a b, (pyStrip s.data).map Char.toLower = a ++ "firebird 2.5".data ++ b) ∨
         (∃ a b, (pyStrip s.data).map Char.toLower = a ++ "wi-v2.5".data ++ b))) ∧
    _is_25 "2.5.9" = true ∧ _is_25 "Firebird 2.5" = true ∧
    _is_25 "WI-V2.5.9" = true ∧ _is_25 "3.0.10" = false := by
  refine ⟨fun s => ?_, by decide, by decide, by decide, by decide⟩
  simp only [_is_25, Bool.or_eq_true, litHere_iff, hasSub_iff]
  exact or_assoc

/-! ### `fb_utils.server_major` -/

/-- Value of a list of decimal digit characters (Python `int` on a digit string). -/
def digitsToNat (l : List Char) : Nat :=
  l.foldl (fun n c => 10 * n + (c.toNat - '0'.toNat)) 0

/-- Leftmost match of the Python regex `(\d+)\.(\d+)` (via `re.search`),
returning group 1.  At each start position the regex engine takes the maximal
digit run; since `.` is not a digit no shorter run can be completed, so the
search succeeds at a position exactly when the maximal digit run there is
non-empty and is followed by `.` and at least one digit. -/
def findDotted : List Char → Option (List Char)
  | [] => none
  | c :: rest =>
    let d1 := (c :: rest).takeWhile Char.isDigit
    if d1.isEmpty then findDotted rest
    else
      match (c :: rest).dropWhile Char.isDigit with
      | '.' :: r2 =>
        if (r2.takeWhile Char.isDigit).isEmpty then findDotted rest else some d1
      | _ => findDotted rest

/-- Leftmost match of the Python regex `(\d+)` (via `re.search`): the first
maximal digit run in the string. -/
def findInt (l : List Char) : Option (List Char) :=
  let r := l.dropWhile (fun c => !c.isDigit)
  if r.isEmpty then none else some (r.takeWhile Char.isDigit)

/-- `fb_utils.server_major`: extract the major version from a Firebird version
string.  Mirrors the source: empty string → `None`; else group 1 of
`(\d+)\.(\d+)`; else group 1 of `(\d+)`; else `None`.  (`int` on a captured
digit group never raises, so the guarded `except` branches are dead.) -/
def server_major (version : String) : Option Nat :=
  if version = "" then none
  else
    match findDotted version.data with
    | some d => some (digitsToNat d)
    | none => (findInt version.data).map digitsToNat

theorem takeWhile_append_of_all {p : Char → Bool} (xs ys : List Char)
    (h : ∀ x ∈ xs, p x = true) :
    (xs ++ ys).takeWhile p = xs ++ ys.takeWhile p := by
  induction xs with
  | nil => simp
  | cons x xs ih =>
    simp [List.takeWhile_cons, h x (by simp), ih (fun a ha => h a (by simp [ha]))]

theorem dropWhile_append_of_all {p : Char → Bool} (xs ys : List Char)
    (h : ∀ x ∈ xs, p x = true) :
    (xs ++ ys).dropWhile p = ys.dropWhile p := by
  induction xs with
  | nil => simp
  | cons x xs ih =>
    simp only [List.cons_append, List.dropWhile_cons, h x (by simp),
      ih (fun a ha => h a (by simp [ha])), if_true]

theorem findDotted_of_no_digits (l : List Char) (h : ∀ c ∈ l, c.isDigit = false) :
    findDotted l = none := by
  induction l with
  | nil => rfl
  | cons c rest ih =>
    have hc : c.isDigit = false := h c (by simp)
    simp [findDotted, List.takeWhile_cons, hc, ih (fun a ha => h a (by simp [ha]))]

theorem findDotted_of_no_dot (l : List Char) (h : '.' ∉ l) : findDotted l = none := by
  induction l with
  | nil => rfl
  | cons c rest ih =>
    have ih' := ih (fun hm => h (by simp [hm]))
    rw [findDotted]
    split
    · exact ih'
    · split
      · rename_i r2 heq
        have hmem : '.' ∈ c :: rest := (List.dropWhile_sublist _).mem (by rw [heq]; simp)
        exact absurd hmem h
      · exact ih'

theorem findDotted_append (pre d1 d2 post : List Char)
    (hpre : ∀ c ∈ pre, c.isDigit = false)
    (hd1 : d1 ≠ []) (hd1d : ∀ c ∈ d1, c.isDigit = true)
    (hd2 : d2 ≠ []) (hd2d : ∀ c ∈ d2, c.isDigit = true) :
    findDotted (pre ++ (d1 ++ '.' :: (d2 ++ post))) = some d1 := by
  induction pre with
  | nil =>
    cases d1 with
    | nil => exact absurd rfl hd1
    | cons a d1' =>
      have ha : a.isDigit = true := hd1d a (by simp)
      have htk : ((a :: d1') ++ '.' :: (d2 ++ post)).takeWhile Char.isDigit = a :: d1' := by
        rw [takeWhile_append_of_all _ _ hd1d]
        simp [List.takeWhile_cons]
      have hdw : ((a :: d1') ++ '.' :: (d2 ++ post)).dropWhile Char.isDigit
          = '.' :: (d2 ++ post) := by
        rw [dropWhile_append_of_all _ _ hd1d]
        simp [List.dropWhile_cons]
      cases d2 with
      | nil => exact absurd rfl hd2
      | cons b d2' =>
        have hb : b.isDigit = true := hd2d b (by simp)
        simp only [List.cons_append] at htk hdw ⊢
        simp [findDotted, htk, hdw, List.takeWhile_cons, hb]
  | cons p pre' ih =>
    have hp : p.isDigit = false := hpre p (by simp)
    have ih' := ih (fun a ha => hpre a (by simp [ha]))
    simpa [findDotted, List.takeWhile_cons, hp] using ih'

theorem findInt_append (pre d post : List Char)
    (hpre : ∀ c ∈ pre, c.isDigit = false)
    (hd : d ≠ []) (hdd : ∀ c ∈ d, c.isDigit = true)
    (hpost : ∀ c, post.head? = some c → c.isDigit = false) :
    findInt (pre ++ (d ++ post)) = some d := by
  cases d with
  | nil => exact absurd rfl hd
  | cons a d' =>
    have ha : a.isDigit = true := hdd a (by simp)
    have hall : ∀ x ∈ pre, (fun c => !c.isDigit) x = true := by
      intro x hx; simp [hpre x hx]
    have hdw : (pre ++ (a :: (d' ++ post))).dropWhile (fun c => !c.isDigit)
        = a :: (d' ++ post) := by
      rw [dropWhile_append_of_all _ _ hall]
      simp [List.dropWhile_cons, ha]
    have htk : (a :: (d' ++ post)).takeWhile Char.isDigit = a :: d' := by
      have h2 : (d' ++ post).takeWhile Char.isDigit = d' ++ post.takeWhile Char.isDigit :=
        takeWhile_append_of_all _ _ (fun x hx => hdd x (by simp [hx]))
      have h3 : post.takeWhile Char.isDigit = [] := by
        cases post with
        | nil => simp
        | cons b post' => simp [List.takeWhile_cons, hpost b rfl]
      simp [List.takeWhile_cons, ha, h2, h3]
    simp only [findInt, List.cons_append] at hdw ⊢
    rw [hdw]
    simp [htk]

/-- C3: `server_major` returns the leading integer run before the first `.` of
a dotted version form, the first integer run anywhere when no dotted form is
present, and `None` when the string has no digits; concretely
`server_major "3.0.10" = 3`, `server_major "Firebird 2.5" = 2`, and
`server_major ""` is `None`. -/
theorem server_major_characterization :
    server_major "3.0.10" = some 3 ∧
    server_major "Firebird 2.5" = some 2 ∧
    server_major "" = none ∧
    (∀ s : String, (∀ c ∈ s.data, c.isDigit = false) → server_major s = none) ∧
    (∀ pre d1 d2 post : List Char,
        (∀ c ∈ pre, c.isDigit = false) →
        d1 ≠ [] → (∀ c ∈ d1, c.isDigit = true) →
        d2 ≠ [] → (∀ c ∈ d2, c.isDigit = true) →
        server_major ⟨pre ++ (d1 ++ '.' :: (d2 ++ post))⟩ = some (digitsToNat d1)) ∧
    (∀ pre d post : List Char,
        (∀ c ∈ pre, c.isDigit = false) →
        d ≠ [] → (∀ c ∈ d, c.isDigit = true) →
        (∀ c, post.head? = some c → c.isDigit = false) →
        '.' ∉ pre ++ (d ++ post) →
        server_major ⟨pre ++ (d ++ post)⟩ = some (digitsToNat d)) := by
  refine ⟨by decide, by decide, by decide, fun s hs => ?_, ?_, ?_⟩
  · by_cases hempty : s = ""
    · simp [server_major, hempty]
    · have hfd := findDotted_of_no_digits s.data hs
      have hfi : findInt s.data = none := by
        have : s.data.dropWhile (fun c => !c.isDigit) = [] := by
          rw [List.dropWhile_eq_nil_iff]
          intro x hx
          simp [hs x hx]
        simp [findInt, this]
      simp [server_major, hempty, hfd, hfi]
  · intro pre d1 d2 post hpre hd1 hd1d hd2 hd2d
    have hne : (⟨pre ++ (d1 ++ '.' :: (d2 ++ post))⟩ : String) ≠ "" := by
      simp only [ne_eq, String.ext_iff]
      cases d1 with
      | nil => exact absurd rfl hd1
      | cons a d1' => simp
    simp [server_major, hne, findDotted_append pre d1 d2 post hpre hd1 hd1d hd2 hd2d]
  · intro pre d post hpre hd hdd hpost hdot
    have hne : (⟨pre ++ (d ++ post)⟩ : String) ≠ "" := by
      simp only [ne_eq, String.ext_iff]
      cases d with
      | nil => exact absurd rfl hd
      | cons a d' => simp
    simp [server_major, hne, findDotted_of_no_dot _ hdot,
      findInt_append pre d post hpre hd hdd hpost]

/-- Concrete instantiation of the quantified parts of `server_major_characterization`. -/
theorem server_major_characterization_witness :
    server_major "abc" = none ∧
    server_major "WI-V2.5.9" = some 2 ∧
    server_major "build 42" = some 42 := by
  refine ⟨server_major_characterization.2.2.2.1 "abc" (by decide), ?_, ?_⟩
  · have h := server_major_characterization.2.2.2.2.1
      "WI-V".data "2".data "5".data ".9".data
      (by decide) (by decide) (by decide) (by decide) (by decide)
    simpa using h
  · have h := server_major_characterization.2.2.2.2.2
      "build ".data "42".data [] (by decide) (by decide) (by decide)
      (by intro c hc; simp at hc) (by decide)
    simpa using h

/-! ### DSN parsing: `fb_utils._parse_dsn`, `connection.open_dsn`, `dbapi._parse_dsn` -/

/-- Python `s.split(sep, 1)` when `sep` occurs in `s` (`none` when it does not). -/
def splitOnce (sep : Char) : List Char → Option (List Char × List Char)
  | [] => none
  | c :: cs =>
    if c = sep then some ([], cs)
    else
      match splitOnce sep cs with
      | some (a, b) => some (c :: a, b)
      | none => none

/-- Python `s.split(sep)` (full split; `"".split(sep) = [""]`). -/
def splitAll (sep : Char) : List Char → List (List Char)
  | [] => [[]]
  | c :: cs =>
    if c = sep then [] :: splitAll sep cs
    else
      match splitAll sep cs with
      | [] => [[c]]
      | a :: rest => (c :: a) :: rest

/-- The anchored Python regex `^[A-Za-z]:\\` used by both classic DSN parsers
to recognize a bare Windows local path. -/
def winPathTest : List Char → Bool
  | c :: ':' :: '\\' :: _ => c.isAlpha
  | _ => false

/-- Python `x or None` for a string `x`: `None` when empty. -/
def strTruthy (l : List Char) : Option String :=
  if l = [] then none else some ⟨l⟩

/-- `fb_utils._parse_dsn`: parse a classic DSN into `(host, port, path)`,
with `host or None` / `port or None` applied and the port kept as a string. -/
def fbUtilsParseDsn (dsn : String) : Option String × Option String × String :=
  if winPathTest dsn.data then (none, none, dsn)
  else
    match splitOnce ':' dsn.data with
    | some (hostpart, path) =>
      match splitOnce '/' hostpart with
      | some (h, p) => (strTruthy h, strTruthy p, ⟨path⟩)
      | none => (strTruthy hostpart, none, ⟨path⟩)
    | none => (none, none, dsn)

/-- Digit-run tail with single underscores allowed between digits, as accepted
by Python `int` after its first digit (`1_0` parses, `1__0` and `1_` do not). -/
def digitsUS : List Char → Bool
  | [] => true
  | c :: rest =>
    if c = '_' then
      match rest with
      | [] => false
      | d :: rest' => d.isDigit && digitsUS rest'
    else c.isDigit && digitsUS rest

/-- Unsigned part of Python `int(str)`: a non-empty digit run with optional
underscores strictly between digits. -/
def pyIntCore (l : List Char) : Option Nat :=
  match l with
  | [] => none
  | c :: rest =>
    if c.isDigit && digitsUS rest then some (digitsToNat (l.filter (· ≠ '_')))
    else none

/-- Python `int(str)` (ASCII model): strip whitespace, optional single sign,
then a digit run; `none` models the `ValueError` path. -/
def pyInt (s : List Char) : Option Int :=
  match pyStrip s with
  | '+' :: rest => (pyIntCore rest).map (fun n => (n : Int))
  | '-' :: rest => (pyIntCore rest).map (fun n => -(n : Int))
  | t => (pyIntCore t).map (fun n => (n : Int))

/-- `connection.FBAuth`. -/
structure FBAuth where
  user : String
  password : String
  role : Option String
  deriving DecidableEq, Repr

/-- `connection.FBConnParams`. -/
structure FBConnParams where
  host : String
  port : Int
  database : String
  charset : String := "UTF8"
  auth : Option FBAuth := none
  connect_timeout : Option Int := some 15
  deriving DecidableEq, Repr

/-- Python `x or default` for an optional string (`None` and `""` are falsy). -/
def pyOrStrOpt (v : Option String) (d : String) : String :=
  match v with
  | none => d
  | some s => if s = "" then d else s

/-- Python `x or default` for an optional integer (`None` and `0` are falsy). -/
def pyOrInt (v : Option Int) (d : Int) : Int :=
  match v with
  | none => d
  | some n => if n = 0 then d else n

/-- Python truthiness of an optional string. -/
def optTruthy : Option String → Bool
  | none => false
  | some s => s != ""

/-- The classic-DSN parse performed inline by `connection.open_dsn`:
Windows-path test, then split on the first `:`, then split the host part on
the first `/` with `int` applied to the port (`None` on `ValueError`). -/
def openDsnParse (dsn : String) : Option String × Option Int × String :=
  if winPathTest dsn.data then (none, none, dsn)
  else
    match splitOnce ':' dsn.data with
    | some (host_part, database) =>
      match splitOnce '/' host_part with
      | some (h, ps) => (some ⟨h⟩, pyInt ps, ⟨database⟩)
      | none => (some ⟨host_part⟩, none, ⟨database⟩)
    | none => (none, none, dsn)

/-- The `FBConnParams` value constructed by `connection.open_dsn` just before
it calls `FirebirdConnection.open`. -/
def open_dsn_params (dsn : String) (user password role : Option String)
    (charset : String) (timeout : Int) : FBConnParams :=
  let parsed := openDsnParse dsn
  let conn_host := pyOrStrOpt parsed.1 "localhost"
  let conn_port := pyOrInt parsed.2.1 3050
  let auth : Option FBAuth :=
    if optTruthy user || optTruthy password || optTruthy role then
      some { user := pyOrStrOpt user "SYSDBA", password := pyOrStrOpt password "",
             role := role }
    else none
  { host := conn_host, port := conn_port, database := parsed.2.2,
    charset := charset, auth := auth, connect_timeout := some timeout }

/-- Look a key up in the dict built by `dict(p.split("=",1) for p in ...)`:
the last binding of a key wins. -/
def dictGet (k : List Char) (assocs : List (List Char × List Char)) : Option (List Char) :=
  (assocs.reverse.find? (fun kv => kv.1 == k)).map (·.2)

/-- `dbapi._parse_dsn`: the legacy connector's DSN parser, returning
`(host | None, database_path)` with no Windows drive-letter exception. -/
def dbapiParseDsn (dsn : String) : Option String × String :=
  let low := pyStrip (dsn.data.map Char.toLower)
  if dsn.data.contains ';' && hasSub "database=".data low then
    let pairs := ((splitAll ';' dsn.data).filter (fun p => p.contains '=')).filterMap
        (fun p => splitOnce '=' p)
    let host := dictGet "host".data pairs
    let database := (dictGet "database".data pairs).getD []
    (host.map (⟨·⟩), ⟨database⟩)
  else if (splitOnce ':' dsn.data).isSome && !(litHere "database=".data low) then
    match splitOnce ':' dsn.data with
    | some (host, path) => (strTruthy host, ⟨path⟩)
    | none => (none, dsn)
  else (none, dsn)

theorem splitOnce_not_mem (sep : Char) (l : List Char) (h : sep ∉ l) :
    splitOnce sep l = none := by
  induction l with
  | nil => rfl
  | cons c cs ih =>
    have hc : c ≠ sep := fun hc => h (by simp [hc])
    simp [splitOnce, hc, ih (fun hm => h (by simp [hm]))]

theorem splitOnce_append (sep : Char) (a b : List Char) (h : sep ∉ a) :
    splitOnce sep (a ++ sep :: b) = some (a, b) := by
  induction a with
  | nil => simp [splitOnce]
  | cons c a' ih =>
    have hc : c ≠ sep := fun hc => h (by simp [hc])
    simp [splitOnce, hc, ih (fun hm => h (by simp [hm]))]

theorem dropWhile_of_head_false {p : Char → Bool} :
    ∀ l : List Char, (∀ c, l.head? = some c → p c = false) → l.dropWhile p = l
  | [], _ => rfl
  | c :: cs, h => by simp [List.dropWhile_cons, h c rfl]

theorem pyStrip_of_ends (l : List Char)
    (h1 : ∀ c, l.head? = some c → pySpace c = false)
    (h2 : ∀ c, l.getLast? = some c → pySpace c = false) :
    pyStrip l = l := by
  have hl : stripLeft l = l := dropWhile_of_head_false l h1
  unfold pyStrip stripRight
  rw [hl]
  have hr : l.reverse.dropWhile pySpace = l.reverse := by
    apply dropWhile_of_head_false
    intro c hc
    exact h2 c (by rwa [List.head?_reverse] at hc)
  rw [hr, List.reverse_reverse]

theorem pySpace_eq_false_of_isDigit {c : Char} (h : c.isDigit = true) :
    pySpace c = false := by
  by_contra hns
  have hsp : pySpace c = true := by simpa using hns
  simp only [pySpace, Bool.or_eq_true, beq_iff_eq] at hsp
  rcases hsp with ((((h1 | h1) | h1) | h1) | h1) | h1 <;> (subst h1; exact absurd h (by decide))

theorem digitsUS_of_digits (l : List Char) (h : ∀ c ∈ l, c.isDigit = true) :
    digitsUS l = true := by
  induction l with
  | nil => rfl
  | cons c rest ih =>
    have hc : c.isDigit = true := h c (by simp)
    have hne : c ≠ '_' := by rintro rfl; exact absurd hc (by decide)
    unfold digitsUS
    simp [hne, hc, ih (fun a ha => h a (by simp [ha]))]

theorem pyInt_digits (l : List Char) (hne : l ≠ []) (h : ∀ c ∈ l, c.isDigit = true) :
    pyInt l = some ((digitsToNat l : Nat) : Int) := by
  have hstrip : pyStrip l = l :=
    pyStrip_of_ends l
      (fun c hc => pySpace_eq_false_of_isDigit (h c (List.mem_of_mem_head? (by simp [hc]))))
      (fun c hc => pySpace_eq_false_of_isDigit (h c (List.mem_of_mem_getLast? (by simp [hc]))))
  cases l with
  | nil => exact absurd rfl hne
  | cons c rest =>
    have hc : c.isDigit = true := h c (by simp)
    have hc1 : c ≠ '+' := by rintro rfl; exact absurd hc (by decide)
    have hc2 : c ≠ '-' := by rintro rfl; exact absurd hc (by decide)
    have hfil : List.filter (fun x => !decide (x = '_')) (c :: rest) = c :: rest := by
      apply List.filter_eq_self.mpr
      intro a ha
      have hd : a.isDigit = true := h a ha
      have hne2 : a ≠ '_' := by rintro rfl; exact absurd hd (by decide)
      simpa using hne2
    have hcore : pyIntCore (c :: rest) = some (digitsToNat (c :: rest)) := by
      have hus := digitsUS_of_digits rest (fun a ha => h a (by simp [ha]))
      simp only [pyIntCore, hc, hus, Bool.and_self, if_true]
      rw [show ((c :: rest).filter (· ≠ '_')) = List.filter (fun x => !decide (x = '_')) (c :: rest)
        from by simp]
      rw [hfil]
    simp [pyInt, hstrip, hc1, hc2, hcore]

/-- C5 counterexample: the DSN `localhost/0:C:\data\db.fdb` is of the
`host/port:path` grammar form with the port `0` present, yet `open_dsn`
builds connection parameters with port `3050`, because the Python default
`port or 3050` treats the parsed integer `0` as falsy, not only an absent
port. -/
theorem open_dsn_port_zero_counterexample :
    fbUtilsParseDsn "localhost/0:C:\\data\\db.fdb"
      = (some "localhost", some "0", "C:\\data\\db.fdb") ∧
    (open_dsn_params "localhost/0:C:\\data\\db.fdb" none none none "UTF8" 15).port = 3050 ∧
    (3050 : Int) ≠ 0 := by
  refine ⟨by decide, ?_, by decide⟩
  decide

/-- C5 (amended): for the three classic DSN grammar forms the primary parser
`fb_utils._parse_dsn` yields the documented `(host, port, path)` triple, and
`open_dsn` defaults the host to `localhost` when absent or empty and the port
to `3050` when absent, non-numeric, or when the parsed port value equals 0
(Python falsiness); a present non-zero numeric port is used as given. -/
theorem dsn_parse_forms :
    (∀ dsn : String, winPathTest dsn.data = true →
        fbUtilsParseDsn dsn = (none, none, dsn) ∧
        ∀ u pw r cs t, open_dsn_params dsn u pw r cs t
          = { host := "localhost", port := 3050, database := dsn, charset := cs,
              auth := (open_dsn_params dsn u pw r cs t).auth,
              connect_timeout := some t }) ∧
    (∀ host path : String, host ≠ "" → ':' ∉ host.data → '/' ∉ host.data →
        winPathTest (host.data ++ ':' :: path.data) = false →
        fbUtilsParseDsn ⟨host.data ++ ':' :: path.data⟩ = (some host, none, path) ∧
        ∀ u pw r cs t, open_dsn_params ⟨host.data ++ ':' :: path.data⟩ u pw r cs t
          = { host := host, port := 3050, database := path, charset := cs,
              auth := (open_dsn_params ⟨host.data ++ ':' :: path.data⟩ u pw r cs t).auth,
              connect_timeout := some t }) ∧
    (∀ host port path : String, host ≠ "" → ':' ∉ host.data → '/' ∉ host.data →
        ':' ∉ port.data → port ≠ "" → (∀ c ∈ port.data, c.isDigit = true) →
        winPathTest (host.data ++ '/' :: (port.data ++ ':' :: path.data)) = false →
        fbUtilsParseDsn ⟨host.data ++ '/' :: (port.data ++ ':' :: path.data)⟩
          = (some host, some port, path) ∧
        ∀ u pw r cs t,
          open_dsn_params ⟨host.data ++ '/' :: (port.data ++ ':' :: path.data)⟩ u pw r cs t
          = { host := host,
              port := if (digitsToNat port.data : Int) = 0 then 3050
                      else (digitsToNat port.data : Int),
              database := path, charset := cs,
              auth := (open_dsn_params ⟨host.data ++ '/' :: (port.data ++ ':' :: path.data)⟩
                        u pw r cs t).auth,
              connect_timeout := some t }) := by
  refine ⟨fun dsn hwin => ⟨?_, fun u pw r cs t => ?_⟩,
          fun host path hne hc hs hwin => ⟨?_, fun u pw r cs t => ?_⟩,
          fun host port path hne hc hs hpc hpne hpd hwin => ⟨?_, fun u pw r cs t => ?_⟩⟩
  · simp [fbUtilsParseDsn, hwin]
  · simp [open_dsn_params, openDsnParse, hwin, pyOrStrOpt, pyOrInt]
  · have hsp := splitOnce_append ':' host.data path.data hc
    have hno : splitOnce '/' host.data = none := splitOnce_not_mem '/' host.data hs
    have hdata : (⟨host.data ++ ':' :: path.data⟩ : String).data
        = host.data ++ ':' :: path.data := rfl
    have hht : strTruthy host.data = some host := by
      have : host.data ≠ [] := fun hh => hne (by cases host; simpa [String.ext_iff] using hh)
      simp [strTruthy, this]
    simp [fbUtilsParseDsn, hwin, hdata, hsp, hno, hht]
  · have hsp := splitOnce_append ':' host.data path.data hc
    have hno : splitOnce '/' host.data = none := splitOnce_not_mem '/' host.data hs
    have hne' : (⟨host.data⟩ : String) ≠ "" := by
      intro hh
      exact hne (by cases host; simpa using hh)
    simp [open_dsn_params, openDsnParse, hwin, hsp, hno, pyOrStrOpt, pyOrInt, hne']
  · have hrearr : host.data ++ '/' :: (port.data ++ ':' :: path.data)
        = (host.data ++ '/' :: port.data) ++ ':' :: path.data := by simp
    have hmem : ':' ∉ host.data ++ '/' :: port.data := by
      intro hm
      rcases List.mem_append.mp hm with hm | hm
      · exact hc hm
      · rcases List.mem_cons.mp hm with hm | hm
        · exact absurd hm.symm (by decide)
        · exact hpc hm
    have hsp : splitOnce ':' (host.data ++ '/' :: (port.data ++ ':' :: path.data))
        = some (host.data ++ '/' :: port.data, path.data) := by
      rw [hrearr]; exact splitOnce_append ':' _ _ hmem
    have hsp2 := splitOnce_append '/' host.data port.data hs
    have hht : strTruthy host.data = some host := by
      have : host.data ≠ [] := fun hh => hne (by cases host; simpa [String.ext_iff] using hh)
      simp [strTruthy, this]
    have hpt : strTruthy port.data = some port := by
      have : port.data ≠ [] := fun hh => hpne (by cases port; simpa [String.ext_iff] using hh)
      simp [strTruthy, this]
    simp [fbUtilsParseDsn, hwin, hsp, hsp2, hht, hpt]
  · have hrearr : host.data ++ '/' :: (port.data ++ ':' :: path.data)
        = (host.data ++ '/' :: port.data) ++ ':' :: path.data := by simp
    have hmem : ':' ∉ host.data ++ '/' :: port.data := by
      intro hm
      rcases List.mem_append.mp hm with hm | hm
      · exact hc hm
      · rcases List.mem_cons.mp hm with hm | hm
        · exact absurd hm.symm (by decide)
        · exact hpc hm
    have hsp : splitOnce ':' (host.data ++ '/' :: (port.data ++ ':' :: path.data))
        = some (host.data ++ '/' :: port.data, path.data) := by
      rw [hrearr]; exact splitOnce_append ':' _ _ hmem
    have hsp2 := splitOnce_append '/' host.data port.data hs
    have hpint := pyInt_digits port.data
      (fun hh => hpne (by cases port; simpa [String.ext_iff] using hh)) hpd
    have hne' : (⟨host.data⟩ : String) ≠ "" := by
      intro hh
      exact hne (by cases port; cases host; simpa using hh)
    simp only [open_dsn_params, openDsnParse, hwin, hsp, hsp2, hpint, pyOrStrOpt, pyOrInt,
      Bool.false_eq_true, if_false]
    simp [hne']

/-- Concrete instantiation of `dsn_parse_forms` at the three documented DSNs. -/
theorem dsn_parse_forms_witness :
    fbUtilsParseDsn "C:\\path\\db.fdb" = (none, none, "C:\\path\\db.fdb") ∧
    fbUtilsParseDsn "localhost:C:\\path\\db.fdb"
      = (some "localhost", none, "C:\\path\\db.fdb") ∧
    fbUtilsParseDsn "localhost/3053:C:\\path\\db.fdb"
      = (some "localhost", some "3053", "C:\\path\\db.fdb") ∧
    (open_dsn_params "localhost/3053:C:\\path\\db.fdb" none none none "UTF8" 15).port
      = 3053 := by
  refine ⟨(dsn_parse_forms.1 "C:\\path\\db.fdb" (by decide)).1, ?_, ?_, ?_⟩
  · have h := (dsn_parse_forms.2.1 "localhost" "C:\\path\\db.fdb" (by decide) (by decide)
      (by decide) (by decide)).1
    simpa using h
  · have h := (dsn_parse_forms.2.2 "localhost" "3053" "C:\\path\\db.fdb" (by decide)
      (by decide) (by decide) (by decide) (by decide) (by decide) (by decide)).1
    simpa using h
  · have h := (dsn_parse_forms.2.2 "localhost" "3053" "C:\\path\\db.fdb" (by decide)
      (by decide) (by decide) (by decide) (by decide) (by decide) (by decide)).2
      none none none "UTF8" 15
    rw [show (⟨("localhost").data ++ '/' :: (("3053").data ++ ':' :: ("C:\\path\\db.fdb").data)⟩
        : String) = "localhost/3053:C:\\path\\db.fdb" from by decide] at h
    rw [h]
    decide

/-- C10: the legacy connector's DSN parser treats any DSN containing `:` that
is not a key=value form as `host:path` with no drive-letter exception; for
`C:\path\db.fdb` it returns host `C` and path `\path\db.fdb`, where the
primary parser returns `(None, None, full path)` for the same input. -/
theorem dbapi_parse_host_path :
    dbapiParseDsn "C:\\path\\db.fdb" = (some "C", "\\path\\db.fdb") ∧
    fbUtilsParseDsn "C:\\path\\db.fdb" = (none, none, "C:\\path\\db.fdb") ∧
    (∀ host path : String, ':' ∉ host.data →
        (¬ ∃ a b, pyStrip ((host.data ++ ':' :: path.data).map Char.toLower)
            = a ++ "database=".data ++ b) →
        dbapiParseDsn ⟨host.data ++ ':' :: path.data⟩ = (strTruthy host.data, path)) := by
  refine ⟨by decide, by decide, fun host path hc hnodb => ?_⟩
  have hsub : hasSub "database=".data
      (pyStrip ((host.data ++ ':' :: path.data).map Char.toLower)) = false := by
    rw [← Bool.not_eq_true, hasSub_iff]
    simpa using hnodb
  have hlit : litHere "database=".data
      (pyStrip ((host.data ++ ':' :: path.data).map Char.toLower)) = false := by
    rw [← Bool.not_eq_true, litHere_iff]
    intro ⟨t, ht⟩
    exact hnodb ⟨[], t, by simpa using ht⟩
  have hsp := splitOnce_append ':' host.data path.data hc
  simp only [List.map_append, List.map_cons, show Char.toLower ':' = ':' from rfl]
    at hsub hlit
  simp [dbapiParseDsn, hsub, hlit, hsp]

/-! ### `profiles.ProfileStore.rename` -/

/-- `profiles.ConnectionProfile` (passwords are never part of a profile). -/
structure ConnectionProfile where
  name : String
  dsn : String
  user : Option String := none
  role : Option String := none
  charset : String := "UTF8"
  deriving DecidableEq, Repr

/-- The `profiles` dict of a `ProfileStore`, as an insertion-ordered
association list with unique keys (a Python dict). -/
abbrev ProfileMap := List (String × ConnectionProfile)

/-- The two exceptions `rename` can raise: `KeyError(old)` and
`ValueError(f"Profile exists: {new}")`. -/
inductive RenameError
  | notFound (name : String)
  | alreadyExists (name : String)
  deriving DecidableEq, Repr

/-- Python `k in self.profiles`. -/
def keyMem (k : String) (ps : ProfileMap) : Bool := ps.any (fun e => e.1 == k)

/-- Python `self.profiles[k]` / `.get(k)` (unique keys: first match). -/
def lookupKey (k : String) (ps : ProfileMap) : Option ConnectionProfile :=
  (ps.find? (fun e => e.1 == k)).map (·.2)

/-- `ProfileStore.rename`, with the mutated `self.profiles` passed
explicitly: check `old` is present (else `KeyError`), check `new` is absent
(else `ValueError`), then `pop(old)`, copy the profile with its `name` field
updated, and insert it under `new` (dict insertion appends a fresh key at the
end).  A raise before any mutation leaves the incoming mapping as the
resulting state. -/
def rename (ps : ProfileMap) (old new_ : String) : ProfileMap × Option RenameError :=
  if ¬ keyMem old ps then (ps, some (.notFound old))
  else if keyMem new_ ps then (ps, some (.alreadyExists new_))
  else
    match lookupKey old ps with
    | none => (ps, some (.notFound old))
    | some prof =>
      ((ps.eraseP (fun e => e.1 == old)) ++ [(new_, { prof with name := new_ })], none)

theorem keyMem_eq_true_iff (k : String) (ps : ProfileMap) :
    keyMem k ps = true ↔ k ∈ ps.map Prod.fst := by
  simp [keyMem, List.any_eq_true, List.mem_map, beq_iff_eq]

theorem lookupKey_eq_none_iff (k : String) (ps : ProfileMap) :
    lookupKey k ps = none ↔ k ∉ ps.map Prod.fst := by
  simp only [lookupKey, Option.map_eq_none', List.find?_eq_none, beq_iff_eq,
    List.mem_map]
  constructor
  · rintro h ⟨e, he, rfl⟩
    exact h e he rfl
  · rintro h e he rfl
    exact h ⟨e, he, rfl⟩

theorem lookupKey_cons_eq (k : String) (e : String × ConnectionProfile) (ps : ProfileMap)
    (h : e.1 = k) : lookupKey k (e :: ps) = some e.2 := by
  have hb : (e.1 == k) = true := beq_iff_eq.mpr h
  simp [lookupKey, List.find?_cons, hb]

theorem lookupKey_cons_ne (k : String) (e : String × ConnectionProfile) (ps : ProfileMap)
    (h : e.1 ≠ k) : lookupKey k (e :: ps) = lookupKey k ps := by
  have hb : (e.1 == k) = false := beq_eq_false_iff_ne.mpr h
  simp [lookupKey, List.find?_cons, hb]

theorem lookupKey_append (k : String) (xs ys : ProfileMap) :
    lookupKey k (xs ++ ys) = (lookupKey k xs).orElse (fun _ => lookupKey k ys) := by
  induction xs with
  | nil => simp [lookupKey]
  | cons e xs ih =>
    by_cases he : e.1 = k
    · rw [List.cons_append, lookupKey_cons_eq k e _ he, lookupKey_cons_eq k e _ he]
      rfl
    · rw [List.cons_append, lookupKey_cons_ne k e _ he, lookupKey_cons_ne k e _ he, ih]

theorem lookupKey_eraseP_ne (k old : String) (ps : ProfileMap) (hne : k ≠ old) :
    lookupKey k (ps.eraseP (fun e => e.1 == old)) = lookupKey k ps := by
  induction ps with
  | nil => rfl
  | cons e ps ih =>
    by_cases he : e.1 = old
    · have hb : (e.1 == old) = true := beq_iff_eq.mpr he
      rw [List.eraseP_cons, hb, cond_true,
        lookupKey_cons_ne k e ps (by rw [he]; exact fun h => hne h.symm)]
    · have hb : (e.1 == old) = false := beq_eq_false_iff_ne.mpr he
      rw [List.eraseP_cons, hb, cond_false]
      by_cases hek : e.1 = k
      · rw [lookupKey_cons_eq k e _ hek, lookupKey_cons_eq k e _ hek]
      · rw [lookupKey_cons_ne k e _ hek, lookupKey_cons_ne k e _ hek, ih]

theorem lookupKey_eraseP_self (old : String) (ps : ProfileMap)
    (hnodup : (ps.map Prod.fst).Nodup) :
    lookupKey old (ps.eraseP (fun e => e.1 == old)) = none := by
  induction ps with
  | nil => rfl
  | cons e ps ih =>
    simp only [List.map_cons, List.nodup_cons] at hnodup
    by_cases he : e.1 = old
    · have hb : (e.1 == old) = true := beq_iff_eq.mpr he
      rw [List.eraseP_cons, hb, cond_true, lookupKey_eq_none_iff]
      rw [he] at hnodup
      exact hnodup.1
    · have hb : (e.1 == old) = false := beq_eq_false_iff_ne.mpr he
      rw [List.eraseP_cons, hb, cond_false, lookupKey_cons_ne old e _ he]
      exact ih hnodup.2

/-- C6: `store.rename(old, new)` fails with `KeyError` (NotFound) when `old`
is not a key, fails with `ValueError` (AlreadyExists) when `new` is already a
key — in both cases leaving the mapping completely unchanged — and otherwise
moves the entry from `old` to `new`, updating its embedded `name` field and
leaving every other key's binding intact. -/
theorem rename_spec (ps : ProfileMap) (old new_ : String)
    (hnodup : (ps.map Prod.fst).Nodup) :
    (old ∉ ps.map Prod.fst → rename ps old new_ = (ps, some (.notFound old))) ∧
    (old ∈ ps.map Prod.fst → new_ ∈ ps.map Prod.fst →
      rename ps old new_ = (ps, some (.alreadyExists new_))) ∧
    (old ∈ ps.map Prod.fst → new_ ∉ ps.map Prod.fst →
      ∃ prof ps', lookupKey old ps = some prof ∧
        rename ps old new_ = (ps', none) ∧
        lookupKey new_ ps' = some { prof with name := new_ } ∧
        lookupKey old ps' = none ∧
        ∀ k, k ≠ old → k ≠ new_ → lookupKey k ps' = lookupKey k ps) := by
  refine ⟨fun hold => ?_, fun hold hnew => ?_, fun hold hnew => ?_⟩
  · have h1 : keyMem old ps = false := by
      rw [← Bool.not_eq_true, keyMem_eq_true_iff]; exact hold
    simp [rename, h1]
  · have h1 : keyMem old ps = true := (keyMem_eq_true_iff old ps).mpr hold
    have h2 : keyMem new_ ps = true := (keyMem_eq_true_iff new_ ps).mpr hnew
    simp [rename, h1, h2]
  · have h1 : keyMem old ps = true := (keyMem_eq_true_iff old ps).mpr hold
    have h2 : keyMem new_ ps = false := by
      rw [← Bool.not_eq_true, keyMem_eq_true_iff]; exact hnew
    have hol : lookupKey old ps ≠ none := by
      rw [ne_eq, lookupKey_eq_none_iff]
      simpa using hold
    obtain ⟨prof, hprof⟩ := Option.ne_none_iff_exists'.mp hol
    have hne : old ≠ new_ := fun h => hnew (h ▸ hold)
    refine ⟨prof, (ps.eraseP (fun e => e.1 == old)) ++ [(new_, { prof with name := new_ })],
      hprof, by simp [rename, h1, h2, hprof], ?_, ?_, ?_⟩
    · have hnone : lookupKey new_ ps = none := (lookupKey_eq_none_iff new_ ps).mpr hnew
      rw [lookupKey_append, lookupKey_eraseP_ne new_ old ps (fun h => hne h.symm), hnone]
      exact lookupKey_cons_eq new_ _ [] rfl
    · rw [lookupKey_append, lookupKey_eraseP_self old ps hnodup]
      exact (lookupKey_cons_ne old _ [] (fun h => hne h.symm)).trans rfl
    · intro k hko hkn
      rw [lookupKey_append, lookupKey_eraseP_ne k old ps hko]
      cases hk : lookupKey k ps with
      | some p => rfl
      | none => exact (lookupKey_cons_ne k _ [] (fun h => hkn h.symm)).trans rfl

/-- Concrete instantiation of `rename_spec` on a two-profile store. -/
theorem rename_spec_witness :
    rename [("a", { name := "a", dsn := "d1" }), ("b", { name := "b", dsn := "d2" })]
        "a" "c"
      = ([("b", { name := "b", dsn := "d2" }),
          ("c", { name := "c", dsn := "d1", user := none, role := none,
                  charset := "UTF8" })], none) ∧
    rename [("a", { name := "a", dsn := "d1" })] "x" "c"
      = ([("a", { name := "a", dsn := "d1" })], some (.notFound "x")) ∧
    rename [("a", { name := "a", dsn := "d1" }), ("b", { name := "b", dsn := "d2" })]
        "a" "b"
      = ([("a", { name := "a", dsn := "d1" }), ("b", { name := "b", dsn := "d2" })],
         some (.alreadyExists "b")) := by
  have hnodup : ((([("a", { name := "a", dsn := "d1" }),
      ("b", { name := "b", dsn := "d2" })] : ProfileMap)).map Prod.fst).Nodup := by decide
  refine ⟨?_, ?_, ?_⟩
  · obtain ⟨prof, ps', hprof, hren, -⟩ :=
      (rename_spec [("a", { name := "a", dsn := "d1" }), ("b", { name := "b", dsn := "d2" })]
        "a" "c" hnodup).2.2 (by decide) (by decide)
    have hp : prof = { name := "a", dsn := "d1" } := by
      have : lookupKey "a" [("a", { name := "a", dsn := "d1" }),
          ("b", { name := "b", dsn := "d2" })] = some { name := "a", dsn := "d1" } := by decide
      rw [this] at hprof
      exact (Option.some.injEq _ _ ▸ hprof.symm :)
    rw [hren]
    have hps' : ps' = [("b", { name := "b", dsn := "d2" }),
        ("c", { name := "c", dsn := "d1", user := none, role := none, charset := "UTF8" })] := by
      have := hren
      rw [show rename [("a", { name := "a", dsn := "d1" }), ("b", { name := "b", dsn := "d2" })]
          "a" "c" = ([("b", { name := "b", dsn := "d2" }),
            ("c", { name := "c", dsn := "d1", user := none, role := none,
                    charset := "UTF8" })], none) from by decide] at this
      exact (Prod.mk.injEq _ _ _ _ ▸ this :).1.symm
    rw [hps']
  · exact (rename_spec [("a", { name := "a", dsn := "d1" })] "x" "c" (by decide)).1 (by decide)
  · exact (rename_spec [("a", { name := "a", dsn := "d1" }), ("b", { name := "b", dsn := "d2" })]
      "a" "b" hnodup).2.1 (by decide) (by decide)

/-! ### `gbak_runner.find_gbak` -/

/-- Environment for `find_gbak`: the outcome of every external probe it can
make.  `isFile` models `os.path.isfile`, `whichGbak` models
`shutil.which("gbak")`, `expandPath` models
`os.path.expandvars(os.path.expanduser(·))`, and `isWindows` models
`os.name == "nt"`. -/
structure GbakEnv where
  isWindows : Bool
  isFile : String → Bool
  whichGbak : Option String
  expandPath : String → String

/-- `gbak_runner._candidate_paths_for_major`: version-ordered candidate
install paths — on Windows the detected major first, then 5, 4, 3, 2 with
duplicates skipped; on Unix-like systems a fixed list. -/
def _candidate_paths_for_major (env : GbakEnv) (major : Int) : List String :=
  if env.isWindows then
    let mapping : Int → Option String := fun m =>
      if m = 5 then some "C:\\Program Files\\Firebird\\Firebird_5_0\\bin\\gbak.exe"
      else if m = 4 then some "C:\\Program Files\\Firebird\\Firebird_4_0\\bin\\gbak.exe"
      else if m = 3 then some "C:\\Program Files\\Firebird\\Firebird_3_0\\bin\\gbak.exe"
      else if m = 2 then some "C:\\Program Files\\Firebird\\Firebird_2_5\\bin\\gbak.exe"
      else none
    ([major, 5, 4, 3, 2].foldl (fun acc m =>
        match mapping m with
        | some p => if acc.contains p then acc else acc ++ [p]
        | none => acc) [])
  else
    ["/opt/firebird/bin/gbak", "/usr/bin/gbak", "/usr/local/firebird/bin/gbak",
     "/usr/local/bin/gbak"]

/-- First existing file in a candidate list (the `for`-loop in `find_gbak`). -/
def firstFile (env : GbakEnv) : List String → Option String
  | [] => none
  | p :: rest => if env.isFile p then some p else firstFile env rest

/-- `gbak_runner.find_gbak`: a truthy explicit path wins iff it exists (else
`GbakError`); otherwise a truthy `auto_major` probes the version-specific
candidates; otherwise (or if no candidate exists) the process search path;
otherwise `GbakError`.  Errors carry the source's message strings. -/
def find_gbak (env : GbakEnv) (user_path : Option String) (auto_major : Option Int) :
    Except String String :=
  if optTruthy user_path then
    let p := env.expandPath (user_path.getD "")
    if env.isFile p then .ok p
    else .error ("Provided --gbak-path not found: " ++ p)
  else
    let viaMajor : Option String :=
      match auto_major with
      | some m => if m = 0 then none else firstFile env (_candidate_paths_for_major env m)
      | none => none
    match viaMajor with
    | some p => .ok p
    | none =>
      match env.whichGbak with
      | some g => .ok g
      | none => .error "gbak executable not found. Provide --gbak-path or install Firebird tools."

/-- C7: an explicitly supplied (non-empty) path is chosen iff it exists on
disk — a non-existent explicit path fails with NotFound unconditionally, in
particular even when the process search path or a version-specific install
would have produced a binary; only without an explicit path does the
version-ordered probe run, followed by the search path, and with nothing
found the operation fails with NotFound. -/
theorem find_gbak_precedence (env : GbakEnv) (up : String) (m : Option Int) :
    (up ≠ "" → env.isFile (env.expandPath up) = true →
      find_gbak env (some up) m = .ok (env.expandPath up)) ∧
    (up ≠ "" → env.isFile (env.expandPath up) = false →
      find_gbak env (some up) m
        = .error ("Provided --gbak-path not found: " ++ env.expandPath up)) ∧
    (∀ mv p, mv ≠ 0 → firstFile env (_candidate_paths_for_major env mv) = some p →
      find_gbak env none (some mv) = .ok p) ∧
    (∀ mv g, mv ≠ 0 → firstFile env (_candidate_paths_for_major env mv) = none →
      env.whichGbak = some g →
      find_gbak env none (some mv) = .ok g) ∧
    (∀ mv, mv ≠ 0 → firstFile env (_candidate_paths_for_major env mv) = none →
      env.whichGbak = none →
      find_gbak env none (some mv)
        = .error "gbak executable not found. Provide --gbak-path or install Firebird tools.") ∧
    (env.whichGbak = none →
      find_gbak env none none
        = .error "gbak executable not found. Provide --gbak-path or install Firebird tools.") := by
  refine ⟨fun hne hfile => ?_, fun hne hfile => ?_, fun mv p hmv hfirst => ?_,
    fun mv g hmv hfirst hwhich => ?_, fun mv hmv hfirst hwhich => ?_, fun hwhich => ?_⟩
  · have ht : optTruthy (some up) = true := by simpa [optTruthy] using hne
    simp [find_gbak, ht, hfile]
  · have ht : optTruthy (some up) = true := by simpa [optTruthy] using hne
    simp [find_gbak, ht, hfile]
  · simp [find_gbak, optTruthy, hmv, hfirst]
  · simp [find_gbak, optTruthy, hmv, hfirst, hwhich]
  · simp [find_gbak, optTruthy, hmv, hfirst, hwhich]
  · simp [find_gbak, optTruthy, hwhich]

/-- Concrete instantiation of `find_gbak_precedence`: a non-existent explicit
path loses to nothing even when the search path would find gbak. -/
theorem find_gbak_precedence_witness :
    (find_gbak
      { isWindows := false, isFile := fun _ => false,
        whichGbak := some "/usr/bin/gbak", expandPath := fun p => p }
      (some "/nope/gbak") (some 3)
      = .error "Provided --gbak-path not found: /nope/gbak") ∧
    (find_gbak
      { isWindows := false, isFile := fun p => p == "/explicit/gbak",
        whichGbak := some "/usr/bin/gbak", expandPath := fun p => p }
      (some "/explicit/gbak") (some 3)
      = .ok "/explicit/gbak") := by
  constructor
  · exact (find_gbak_precedence
      { isWindows := false, isFile := fun _ => false,
        whichGbak := some "/usr/bin/gbak", expandPath := fun p => p }
      "/nope/gbak" (some 3)).2.1 (by decide) rfl
  · exact (find_gbak_precedence
      { isWindows := false, isFile := fun p => p == "/explicit/gbak",
        whichGbak := some "/usr/bin/gbak", expandPath := fun p => p }
      "/explicit/gbak" (some 3)).1 (by decide) rfl

/-! ### `connection.FirebirdConnection.export_table_to_csv` -/

/-- `connection._is_identifier`, parameterized by the runtime's Unicode
`str.isalnum` predicate: every character must be alphanumeric, `_`, or `$`
(`all` over the empty string is vacuously true). -/
def _is_identifier (isalnum : Char → Bool) (name : String) : Bool :=
  name.data.all (fun ch => isalnum ch || ch == '_' || ch == '$')

/-- The validation and SELECT-statement construction performed by
`export_table_to_csv` before any cursor work: an invalid table name raises
`FirebirdError` (InvalidInput) with no SQL built; otherwise the query is
`SELECT * FROM "table"` with truthy `where`/`order_by` clauses appended. -/
def export_table_query (isalnum : Char → Bool) (table : String)
    (where_ order_by : Option String) : Except String String :=
  if ¬ _is_identifier isalnum table then .error ("Invalid table name: " ++ table)
  else
    let sql := "SELECT * FROM \"" ++ table ++ "\""
    let sql := if optTruthy where_ then sql ++ " WHERE " ++ where_.getD "" else sql
    let sql := if optTruthy order_by then sql ++ " ORDER BY " ++ order_by.getD "" else sql
    .ok sql

/-- C8: `export_table_to_csv` fails with InvalidInput, before building or
executing any SQL, exactly when some character of the table name is not
alphanumeric, `_`, or `$`; for a valid name the query built is
`SELECT * FROM "table"` with the optional WHERE and ORDER BY clauses
appended. -/
theorem export_table_query_spec (isalnum : Char → Bool) (table : String)
    (where_ order_by : Option String) :
    ((∃ e, export_table_query isalnum table where_ order_by = .error e) ↔
      ¬ ∀ ch ∈ table.data, (isalnum ch = true ∨ ch = '_' ∨ ch = '$')) ∧
    ((∀ ch ∈ table.data, (isalnum ch = true ∨ ch = '_' ∨ ch = '$')) →
      export_table_query isalnum table where_ order_by
        = .ok ((("SELECT * FROM \"" ++ table ++ "\"")
            ++ (match where_ with
                | some w => if w ≠ "" then " WHERE " ++ w else ""
                | none => ""))
            ++ (match order_by with
                | some o => if o ≠ "" then " ORDER BY " ++ o else ""
                | none => ""))) := by
  have hid : _is_identifier isalnum table = true ↔
      ∀ ch ∈ table.data, (isalnum ch = true ∨ ch = '_' ∨ ch = '$') := by
    simp only [_is_identifier, List.all_eq_true, Bool.or_eq_true, beq_iff_eq]
    constructor <;> (intro h ch hch; have := h ch hch; tauto)
  constructor
  · constructor
    · rintro ⟨e, he⟩ hall
      rw [export_table_query, if_neg (by simp [hid.mpr hall])] at he
      simp at he
    · intro hnall
      refine ⟨"Invalid table name: " ++ table, ?_⟩
      rw [export_table_query, if_pos (by rw [hid]; exact hnall)]
  · intro hall
    rw [export_table_query, if_neg (by simp [hid.mpr hall])]
    cases where_ with
    | none =>
      cases order_by with
      | none => simp [optTruthy]
      | some o =>
        by_cases ho : o = "" <;> simp [optTruthy, ho, String.append_assoc] <;>
          rw [show (("\"" : String) ++ (" ORDER BY " ++ o)) = "\" ORDER BY " ++ o from by
            rw [← String.append_assoc]; rfl]
    | some w =>
      cases order_by with
      | none =>
        by_cases hw : w = "" <;> simp [optTruthy, hw, String.append_assoc] <;>
          rw [show (("\"" : String) ++ (" WHERE " ++ w)) = "\" WHERE " ++ w from by
            rw [← String.append_assoc]; rfl]
      | some o =>
        by_cases hw : w = "" <;> by_cases ho : o = "" <;>
          simp [optTruthy, hw, ho, String.append_assoc]
        · rw [show (("\"" : String) ++ (" ORDER BY " ++ o)) = "\" ORDER BY " ++ o from by
            rw [← String.append_assoc]; rfl]
        · rw [show (("\"" : String) ++ (" WHERE " ++ w)) = "\" WHERE " ++ w from by
            rw [← String.append_assoc]; rfl]
        · rw [show (("\"" : String) ++ (" WHERE " ++ (w ++ (" ORDER BY " ++ o))))
              = "\" WHERE " ++ (w ++ (" ORDER BY " ++ o)) from by
            rw [← String.append_assoc]; rfl]

/-- Concrete instantiation of `export_table_query_spec` (ASCII alnum oracle):
a valid table, a rejected injection attempt, and the clause appending. -/
theorem export_table_query_spec_witness :
    export_table_query Char.isAlphanum "MY_TABLE" none none
      = .ok "SELECT * FROM \"MY_TABLE\"" ∧
    (∃ e, export_table_query Char.isAlphanum "T\"; DROP TABLE X--" none none = .error e) ∧
    export_table_query Char.isAlphanum "T1" (some "A > 0") (some "B")
      = .ok "SELECT * FROM \"T1\" WHERE A > 0 ORDER BY B" := by
  refine ⟨?_, ?_, ?_⟩
  · have h := (export_table_query_spec Char.isAlphanum "MY_TABLE" none none).2 (by decide)
    simpa using h
  · exact ((export_table_query_spec Char.isAlphanum "T\"; DROP TABLE X--" none none).1).mpr
      (by decide)
  · have h := (export_table_query_spec Char.isAlphanum "T1" (some "A > 0") (some "B")).2
      (by decide)
    simpa using h

/-! ### `fb_utils.quick_health_summary` -/

/-- Outcome of every guarded probe `quick_health_summary` performs on an open
connection.  `none` on an optional field means the query raised (or returned
no rows); the `monDb` row carries the five MON$DATABASE columns, each of
which may individually be NULL.  `connFails` models `open_dsn` itself
raising. -/
structure HealthEnv where
  connFails : Bool
  engine : String
  serverVersion : Option String
  userRelations : Option Int
  attachments : Option Int
  monDb : Option (Option Int × Option Bool × Option Int × Option Int × Option Int)
  sweepInterval : Option Int
  statements : Option Int

/-- The summary dictionary: a field is `none` exactly when its key is absent. -/
structure HealthSummary where
  engine : Option String := none
  server_version : Option String := none
  user_relations : Option Int := none
  attachments : Option Int := none
  page_size : Option Int := none
  forced_writes : Option Bool := none
  oldest_tx : Option Int := none
  oldest_active : Option Int := none
  next_tx : Option Int := none
  tx_gap : Option Int := none
  sweep_interval : Option Int := none
  statements : Option Int := none
  warnings : Option (List String) := none
  deriving DecidableEq, Repr

/-- `fb_utils.quick_health_summary`: a connection failure yields the empty
summary; otherwise each guarded probe contributes its keys, `tx_gap` is
`max(0, next_tx - oldest_tx)` inside the MON$DATABASE block when both counters
were stored, and the `warnings` key is set only when the list is non-empty
(forced-writes-off check first, then the 20000 gap check). -/
def quick_health_summary (env : HealthEnv) : HealthSummary :=
  if env.connFails then {} else
    let s0 : HealthSummary :=
      { engine := some env.engine, server_version := env.serverVersion,
        user_relations := env.userRelations, attachments := env.attachments }
    let s1 :=
      match env.monDb with
      | none => s0
      | some (ps, fw, oit, oat, nxt) =>
        let s := { s0 with
          page_size := ps, forced_writes := fw, oldest_tx := oit,
          oldest_active := oat, next_tx := nxt }
        match oit, nxt with
        | some o, some n => { s with tx_gap := some (max 0 (n - o)) }
        | _, _ => s
    let s2 := { s1 with
      sweep_interval := env.sweepInterval, statements := env.statements }
    let warns :=
      (if s2.forced_writes = some false then ["Forced writes OFF"] else []) ++
      (match s2.tx_gap with
       | some g => if g > 20000 then ["Large OIT gap; consider sweep"] else []
       | none => [])
    if warns ≠ [] then { s2 with warnings := some warns } else s2

/-- C9: in a health summary, `tx_gap` is present iff both `oldest_tx` and
`next_tx` were obtained, and then equals `max 0 (next - oldest)`; the gap
warning appears exactly when the computed gap exceeds 20000, the forced-writes
warning exactly when `forced_writes` was obtained as false, and the `warnings`
key is present only when at least one warning was produced. -/
theorem quick_health_summary_spec (env : HealthEnv) :
    ((quick_health_summary env).tx_gap.isSome
      ↔ ((quick_health_summary env).oldest_tx.isSome
          ∧ (quick_health_summary env).next_tx.isSome)) ∧
    (∀ o n, (quick_health_summary env).oldest_tx = some o →
        (quick_health_summary env).next_tx = some n →
        (quick_health_summary env).tx_gap = some (max 0 (n - o))) ∧
    ("Large OIT gap; consider sweep" ∈ ((quick_health_summary env).warnings.getD [])
      ↔ ∃ g, (quick_health_summary env).tx_gap = some g ∧ g > 20000) ∧
    ("Forced writes OFF" ∈ ((quick_health_summary env).warnings.getD [])
      ↔ (quick_health_summary env).forced_writes = some false) ∧
    (∀ l, (quick_health_summary env).warnings = some l → l ≠ []) := by
  obtain ⟨cf, eng, sv, ur, att, mdb, sw, st⟩ := env
  cases cf with
  | true =>
    refine ⟨by simp [quick_health_summary], ?_, ?_, ?_, ?_⟩ <;>
      simp [quick_health_summary]
  | false =>
    cases mdb with
    | none =>
      refine ⟨by simp [quick_health_summary], ?_, ?_, ?_, ?_⟩ <;>
        simp [quick_health_summary]
    | some row =>
      obtain ⟨ps, fw, oit, oat, nxt⟩ := row
      cases oit with
      | none =>
        cases fw with
        | none =>
          refine ⟨by simp [quick_health_summary], ?_, ?_, ?_, ?_⟩ <;>
            simp [quick_health_summary]
        | some b =>
          cases b <;>
            exact ⟨by simp [quick_health_summary], by simp [quick_health_summary],
              by simp [quick_health_summary], by simp [quick_health_summary],
              by simp [quick_health_summary]⟩
      | some o =>
        cases nxt with
        | none =>
          cases fw with
          | none =>
            refine ⟨by simp [quick_health_summary], ?_, ?_, ?_, ?_⟩ <;>
              simp [quick_health_summary]
          | some b =>
            cases b <;>
              exact ⟨by simp [quick_health_summary], by simp [quick_health_summary],
                by simp [quick_health_summary], by simp [quick_health_summary],
                by simp [quick_health_summary]⟩
        | some n =>
          by_cases hg : max 0 (n - o) > 20000
          · cases fw with
            | none =>
              refine ⟨by simp [quick_health_summary, hg], ?_, ?_, ?_, ?_⟩ <;>
                simp [quick_health_summary, hg]
            | some b =>
              cases b <;>
                exact ⟨by simp [quick_health_summary, hg],
                  by simp [quick_health_summary, hg],
                  by simp [quick_health_summary, hg],
                  by simp [quick_health_summary, hg],
                  by simp [quick_health_summary, hg]⟩
          · cases fw with
            | none =>
              refine ⟨by simp [quick_health_summary, hg], ?_, ?_, ?_, ?_⟩ <;>
                simp [quick_health_summary, hg]
            | some b =>
              cases b <;>
                exact ⟨by simp [quick_health_summary, hg],
                  by simp [quick_health_summary, hg],
                  by simp [quick_health_summary, hg],
                  by simp [quick_health_summary, hg],
                  by simp [quick_health_summary, hg]⟩

/-- Concrete instantiation of `quick_health_summary_spec`: a large gap with
forced writes off produces both warnings and `tx_gap` 25000. -/
theorem quick_health_summary_spec_witness :
    (quick_health_summary
      { connFails := false, engine := "firebird-driver", serverVersion := some "3.0.10",
        userRelations := some 12, attachments := some 3,
        monDb := some (some 8192, some false, some 100, some 90, some 25100),
        sweepInterval := some 20000, statements := some 5 }).tx_gap = some 25000 ∧
    (quick_health_summary
      { connFails := false, engine := "firebird-driver", serverVersion := some "3.0.10",
        userRelations := some 12, attachments := some 3,
        monDb := some (some 8192, some false, some 100, some 90, some 25100),
        sweepInterval := some 20000, statements := some 5 }).warnings
      = some ["Forced writes OFF", "Large OIT gap; consider sweep"] := by
  constructor
  · exact (quick_health_summary_spec
      { connFails := false, engine := "firebird-driver", serverVersion := some "3.0.10",
        userRelations := some 12, attachments := some 3,
        monDb := some (some 8192, some false, some 100, some 90, some 25100),
        sweepInterval := some 20000, statements := some 5 }).2.1 100 25100 (by decide)
      (by decide)
  · decide

/-! ### `connection.FirebirdConnection.open` -/

/-- The `Engine` literal type: which client library backs a connection. -/
inductive EngineTag
  | firebirdDriver
  | firebirdsql
  deriving DecidableEq, Repr

/-- Environment for `open`: driver availability flags and the outcome of each
external call.  `driverConnect`/`fbsqlConnect` are the raw handles returned by
`_connect_firebird_driver`/`_connect_firebirdsql` (`none` = the call raised);
`versionProbe` is the string returned by `_detect_server_version_driver`
(`none` = the probe raised). -/
structure OpenEnv where
  hasFbDriver : Bool
  hasFirebirdsql : Bool
  driverConnect : Option Nat
  fbsqlConnect : Option Nat
  versionProbe : Option String

/-- The `FirebirdError` exits of `open` that actually propagate. -/
inductive OpenError
  | driverConnectFailed
  | fbsqlConnectFailed
  | missingBothDrivers
  deriving DecidableEq, Repr

/-- `FirebirdConnection.open`.  The body of the version-probe `try` block —
including the `raise FirebirdError(... firebirdsql is not installed ...)`
statement and any failure of the legacy re-connect — is wrapped by
`except Exception: pass`, so every exception inside it is swallowed and the
modern-library connection is returned (`reroute = none` models each swallowed
path). -/
def FirebirdConnection.open (env : OpenEnv) : Except OpenError (EngineTag × Nat) :=
  if env.hasFbDriver then
    match env.driverConnect with
    | none =>
      if env.hasFirebirdsql then
        match env.fbsqlConnect with
        | some c => .ok (.firebirdsql, c)
        | none => .error .fbsqlConnectFailed
      else .error .driverConnectFailed
    | some raw =>
      let reroute : Option (EngineTag × Nat) :=
        match env.versionProbe with
        | none => none
        | some ver =>
          if _is_25 ver then
            if ¬ env.hasFirebirdsql then none
            else
              match env.fbsqlConnect with
              | some c => some (.firebirdsql, c)
              | none => none
          else none
      match reroute with
      | some r => .ok r
      | none => .ok (.firebirdDriver, raw)
  else if env.hasFirebirdsql then
    match env.fbsqlConnect with
    | some c => .ok (.firebirdsql, c)
    | none => .error .fbsqlConnectFailed
  else .error .missingBothDrivers

/-- C1: at the failing input — modern library present and connected, version
probe reporting a Firebird 2.5 server, legacy library not installed — `open`
returns the modern-library connection instead of failing: the
`raise FirebirdError("Server is Firebird 2.5, but 'firebirdsql' is not
installed...")` sits inside the same `try` whose `except Exception: pass`
is meant to ignore probe errors, so it can never propagate.  The 2.5 reroute
itself (both libraries installed) does work as specified. -/
theorem open_25_missing_legacy_returns_modern :
    FirebirdConnection.open
      { hasFbDriver := true, hasFirebirdsql := false, driverConnect := some 7,
        fbsqlConnect := none, versionProbe := some "2.5.9" }
      = .ok (.firebirdDriver, 7) ∧
    FirebirdConnection.open
      { hasFbDriver := true, hasFirebirdsql := true, driverConnect := some 7,
        fbsqlConnect := some 9, versionProbe := some "2.5.9" }
      = .ok (.firebirdsql, 9) ∧
    _is_25 "2.5.9" = true := by
  exact ⟨rfl, rfl, by decide⟩

/-! ### `fb_utils._expand_multi_values_insert`

The statement shape is recognized by the Python regex

  `^\s*INSERT\s+INTO\s+([A-Z0-9_\$]+)\s*\(([^)]+)\)\s*VALUES\s*(\(.+\))\s*;\s*$`

compiled with `IGNORECASE | DOTALL` and applied with `re.match` to
`sql.strip().rstrip(";") + ";"`.  The pattern is anchored at both ends and
every quantifier below is forced: `\s+`/`\s*` and the character classes are
disjoint from what must follow, so maximal munch is the only possible match,
and `([^)]+)` must stop at the first `)`.  The only backtracking quantifier
is the greedy `.+` of group 3: its closing `\)` is the unique position `j`
holding `)` whose suffix matches `\s*;\s*$` (such a suffix contains no
further `)` or `;`), located here by scanning from the end of the string. -/

/-- The class `[A-Z0-9_\$]` under `IGNORECASE` (ASCII letters both cases,
digits, `_`, `$`). -/
def mvIdentChar (c : Char) : Bool :=
  c.isAlpha || c.isDigit || c == '_' || c == '$'

/-- Case-insensitive literal match (the regex keywords under `IGNORECASE`),
returning the remaining input. -/
def matchCI : List Char → List Char → Option (List Char)
  | [], s => some s
  | _ :: _, [] => none
  | p :: ps, c :: cs => if p.toLower = c.toLower then matchCI ps cs else none

/-- The regex piece `\s+` followed by maximal munch. -/
def wsPlus : List Char → Option (List Char)
  | [] => none
  | c :: cs => if pySpace c then some (cs.dropWhile pySpace) else none

/-- Expect one literal character. -/
def expectChar (c : Char) : List Char → Option (List Char)
  | d :: rest => if d = c then some rest else none
  | [] => none

/-- `_MULTI_VALUES_RE.match`, returning `(group 1, group 2, group 3)` =
`(table, cols, values_block)`. -/
def matchMV (s : List Char) : Option (List Char × List Char × List Char) :=
  match matchCI "INSERT".data (s.dropWhile pySpace) with
  | none => none
  | some s2 =>
  match wsPlus s2 with
  | none => none
  | some s3 =>
  match matchCI "INTO".data s3 with
  | none => none
  | some s4 =>
  match wsPlus s4 with
  | none => none
  | some s5 =>
    let table := s5.takeWhile mvIdentChar
    if table.isEmpty then none
    else
      match expectChar '(' ((s5.dropWhile mvIdentChar).dropWhile pySpace) with
      | none => none
      | some s7 =>
        let cols := s7.takeWhile (· != ')')
        if cols.isEmpty then none
        else
          match expectChar ')' (s7.dropWhile (· != ')')) with
          | none => none
          | some s8 =>
            match matchCI "VALUES".data (s8.dropWhile pySpace) with
            | none => none
            | some s9 =>
              let s10 := s9.dropWhile pySpace
              match s10.reverse.dropWhile pySpace with
              | ';' :: r2 =>
                match r2.dropWhile pySpace with
                | ')' :: r3tail =>
                  let vblock := (')' :: r3tail).reverse
                  if vblock.head? = some '(' ∧ 3 ≤ vblock.length then
                    some (table, cols, vblock)
                  else none
                | _ => none
              | _ => none

/-- Python `s.rstrip(";")`. -/
def rstripSemis (l : List Char) : List Char := (l.reverse.dropWhile (· == ';')).reverse

/-- The string `_expand_multi_values_insert` actually matches against:
`sql.strip().rstrip(";") + ";"`. -/
def normalizeMV (sql : String) : List Char := rstripSemis (pyStrip sql.data) ++ [';']

/-- The character-by-character scan that splits the values block on
commas at parenthesis depth zero; mirrors the source loop (`depth` is a
Python int and may go negative), with each part `strip()`ped and the last
part appended at the end. -/
def splitTop : List Char → Int → List Char → List (List Char)
  | [], _, cur => [pyStrip cur.reverse]
  | c :: rest, depth, cur =>
    if c = '(' then splitTop rest (depth + 1) (c :: cur)
    else if c = ')' then splitTop rest (depth - 1) (c :: cur)
    else if c = ',' ∧ depth = 0 then pyStrip cur.reverse :: splitTop rest 0 []
    else splitTop rest depth (c :: cur)

/-- Python `s.rstrip(",")`. -/
def rstripCommas (l : List Char) : List Char := (l.reverse.dropWhile (· == ',')).reverse

/-- `fb_utils._expand_multi_values_insert`: on a regex match, split the
values block on top-level commas and emit one single-tuple INSERT per
non-empty part; otherwise return the original statement unchanged. -/
def _expand_multi_values_insert (sql : String) : List String :=
  match matchMV (normalizeMV sql) with
  | none => [sql]
  | some (table, cols, values_block) =>
    let s := pyStrip values_block
    let parts := splitTop s 0 []
    (parts.filter (fun p => p ≠ [])).map (fun p =>
      ⟨"INSERT INTO ".data ++ table ++ " (".data ++ cols ++ ") VALUES ".data
        ++ rstripCommas (pyStrip p) ++ [';']⟩)

/-- One single-tuple INSERT statement, in the exact format emitted by the
source's f-string. -/
def mkSingleInsert (table cols tup : List Char) : String :=
  ⟨"INSERT INTO ".data ++ table ++ " (".data ++ cols ++ ") VALUES ".data ++ tup ++ [';']⟩

/-- Comma-space-joined value tuples (the spec's statement shape
`VALUES (<tuple>), (<tuple>), ...`). -/
def joinTuples : List (List Char) → List Char
  | [] => []
  | [t] => t
  | t :: t2 :: ts => t ++ ',' :: ' ' :: joinTuples (t2 :: ts)

/-- Modelled from the spec: a multi-tuple INSERT statement of the exact
documented shape `INSERT INTO <table> (<cols>) VALUES <t1>, <t2>, ...;`. -/
def mkMultiInsert (table cols : List Char) (tuples : List (List Char)) : String :=
  ⟨"INSERT INTO ".data ++ table ++ " (".data ++ cols ++ ") VALUES ".data
    ++ joinTuples tuples ++ [';']⟩

/-- Net parenthesis count of a string. -/
def parenDelta : List Char → Int
  | [] => 0
  | c :: rest => (if c = '(' then 1 else if c = ')' then (-1) else 0) + parenDelta rest

/-- No comma occurs at parenthesis depth zero when scanning from depth `d`. -/
def noTopComma : List Char → Int → Bool
  | [], _ => true
  | c :: rest, d =>
    if c = '(' then noTopComma rest (d + 1)
    else if c = ')' then noTopComma rest (d - 1)
    else if c = ',' then decide (d ≠ 0) && noTopComma rest d
    else noTopComma rest d

/-- A well-formed value tuple: parenthesized, balanced, with no top-level
comma (commas inside it sit at depth ≥ 1) and a non-empty body. -/
def GoodTuple (t : List Char) : Prop :=
  3 ≤ t.length ∧ t.head? = some '(' ∧ t.getLast? = some ')' ∧
  noTopComma t 0 = true ∧ parenDelta t = 0

instance (t : List Char) : Decidable (GoodTuple t) := by
  unfold GoodTuple
  infer_instance

theorem pySpace_eq_false_of_mvIdent {c : Char} (h : mvIdentChar c = true) :
    pySpace c = false := by
  by_contra hns
  have hsp : pySpace c = true := by simpa using hns
  simp only [pySpace, Bool.or_eq_true, beq_iff_eq] at hsp
  rcases hsp with ((((h1 | h1) | h1) | h1) | h1) | h1 <;> (subst h1; exact absurd h (by decide))

theorem matchCI_self_append (pat rest : List Char) :
    matchCI pat (pat ++ rest) = some rest := by
  induction pat with
  | nil => rfl
  | cons p ps ih => simp [matchCI, ih]

theorem joinTuples_ne_nil (ts : List (List Char)) (hne : ts ≠ [])
    (hts : ∀ t ∈ ts, GoodTuple t) : joinTuples ts ≠ [] := by
  cases ts with
  | nil => exact absurd rfl hne
  | cons t ts' =>
    obtain ⟨hlen, -, -, -, -⟩ := hts t (by simp)
    cases ts' with
    | nil =>
      rw [joinTuples]
      intro h
      rw [h] at hlen
      simp at hlen
    | cons t2 ts2 =>
      rw [joinTuples]
      intro h
      rcases List.append_eq_nil.mp h with ⟨-, h2⟩
      simp at h2

theorem joinTuples_head? (ts : List (List Char)) (hne : ts ≠ [])
    (hts : ∀ t ∈ ts, GoodTuple t) : (joinTuples ts).head? = some '(' := by
  cases ts with
  | nil => exact absurd rfl hne
  | cons t ts' =>
    obtain ⟨hlen, hhead, -, -, -⟩ := hts t (by simp)
    cases ts' with
    | nil => rw [joinTuples]; exact hhead
    | cons t2 ts2 =>
      rw [joinTuples]
      cases t with
      | nil => simp at hhead
      | cons a tl => simpa using (by simpa using hhead : a = '(')

theorem joinTuples_getLast? (ts : List (List Char)) (hne : ts ≠ [])
    (hts : ∀ t ∈ ts, GoodTuple t) : (joinTuples ts).getLast? = some ')' := by
  induction ts with
  | nil => exact absurd rfl hne
  | cons t ts' ih =>
    cases ts' with
    | nil =>
      rw [joinTuples]
      exact (hts t (by simp)).2.2.1
    | cons t2 ts2 =>
      rw [joinTuples]
      have hrec := ih (by simp) (fun a ha => hts a (by simp [ha]))
      have hjne : joinTuples (t2 :: ts2) ≠ [] :=
        joinTuples_ne_nil (t2 :: ts2) (by simp) (fun a ha => hts a (by simp [ha]))
      rw [show (t ++ ',' :: ' ' :: joinTuples (t2 :: ts2))
          = (t ++ [',', ' ']) ++ joinTuples (t2 :: ts2) from by simp]
      rw [List.getLast?_append_of_ne_nil _ hjne]
      exact hrec

theorem joinTuples_length (ts : List (List Char)) (hne : ts ≠ [])
    (hts : ∀ t ∈ ts, GoodTuple t) : 3 ≤ (joinTuples ts).length := by
  cases ts with
  | nil => exact absurd rfl hne
  | cons t ts' =>
    obtain ⟨hlen, -, -, -, -⟩ := hts t (by simp)
    cases ts' with
    | nil => rw [joinTuples]; exact hlen
    | cons t2 ts2 =>
      rw [joinTuples]
      simp only [List.length_append]
      omega

theorem splitTop_nil (d : Int) (cur : List Char) :
    splitTop [] d cur = [pyStrip cur.reverse] := rfl

theorem splitTop_space (l cur : List Char) :
    splitTop (' ' :: l) 0 cur = splitTop l 0 (' ' :: cur) := by
  simp [splitTop]

theorem splitTop_comma (l cur : List Char) :
    splitTop (',' :: l) 0 cur = pyStrip cur.reverse :: splitTop l 0 [] := by
  simp [splitTop]

theorem splitTop_through (u : List Char) :
    ∀ (rest cur : List Char) (d : Int), noTopComma u d = true →
      splitTop (u ++ rest) d cur = splitTop rest (d + parenDelta u) (u.reverse ++ cur) := by
  induction u with
  | nil =>
    intro rest cur d h
    simp [parenDelta]
  | cons c u' ih =>
    intro rest cur d h
    by_cases hc1 : c = '('
    · subst hc1
      rw [noTopComma] at h
      simp only [if_pos rfl] at h
      rw [List.cons_append, splitTop, if_pos rfl, ih rest ('(' :: cur) (d + 1) h,
        parenDelta, if_pos rfl]
      have h1 : d + (1 + parenDelta u') = d + 1 + parenDelta u' := by ring
      have h2 : ('(' :: u').reverse ++ cur = u'.reverse ++ ('(' :: cur) := by simp
      rw [h1, h2]
    · by_cases hc2 : c = ')'
      · subst hc2
        rw [noTopComma] at h
        simp only [if_neg (by decide : ¬ (')' : Char) = '('), if_pos rfl] at h
        rw [List.cons_append, splitTop, if_neg (by decide : ¬ (')' : Char) = '('),
          if_pos rfl, ih rest (')' :: cur) (d - 1) h, parenDelta,
          if_neg (by decide : ¬ (')' : Char) = '('), if_pos rfl]
        have h1 : d + (-1 + parenDelta u') = d - 1 + parenDelta u' := by ring
        have h2 : (')' :: u').reverse ++ cur = u'.reverse ++ (')' :: cur) := by simp
        rw [h1, h2]
      · by_cases hc3 : c = ','
        · subst hc3
          simp only [noTopComma, if_neg (by decide : ¬ (',' : Char) = '('),
            if_neg (by decide : ¬ (',' : Char) = ')'), if_pos rfl, if_true,
            Bool.and_eq_true, decide_eq_true_eq] at h
          rw [List.cons_append, splitTop, if_neg (by decide : ¬ (',' : Char) = '('),
            if_neg (by decide : ¬ (',' : Char) = ')'),
            if_neg (by simp [h.1] : ¬ ((',' : Char) = ',' ∧ d = 0)),
            ih rest (',' :: cur) d h.2, parenDelta,
            if_neg (by decide : ¬ (',' : Char) = '('),
            if_neg (by decide : ¬ (',' : Char) = ')')]
          have h1 : d + (0 + parenDelta u') = d + parenDelta u' := by ring
          have h2 : (',' :: u').reverse ++ cur = u'.reverse ++ (',' :: cur) := by simp
          rw [h1, h2]
        · rw [noTopComma] at h
          simp only [if_neg hc1, if_neg hc2, if_neg hc3] at h
          rw [List.cons_append, splitTop, if_neg hc1, if_neg hc2,
            if_neg (by simp [hc3] : ¬ (c = ',' ∧ d = 0)),
            ih rest (c :: cur) d h, parenDelta, if_neg hc1, if_neg hc2]
          have h1 : d + (0 + parenDelta u') = d + parenDelta u' := by ring
          have h2 : (c :: u').reverse ++ cur = u'.reverse ++ (c :: cur) := by simp
          rw [h1, h2]

theorem pyStrip_ws_append (ws t : List Char) (hws : ∀ c ∈ ws, pySpace c = true)
    (h1 : ∀ c, t.head? = some c → pySpace c = false)
    (h2 : ∀ c, t.getLast? = some c → pySpace c = false) :
    pyStrip (ws ++ t) = t := by
  unfold pyStrip stripLeft
  rw [dropWhile_append_of_all ws t hws, dropWhile_of_head_false t h1]
  unfold stripRight
  rw [dropWhile_of_head_false _ (fun c hc => h2 c (by rwa [List.head?_reverse] at hc)),
    List.reverse_reverse]

theorem pyStrip_tuple (t : List Char) (h1 : t.head? = some '(')
    (h2 : t.getLast? = some ')') : pyStrip t = t := by
  have hh := pyStrip_ws_append [] t (by simp) ?_ ?_
  · simpa using hh
  · intro c hc
    have h := h1.symm.trans hc
    injection h with h
    subst h
    decide
  · intro c hc
    have h := h2.symm.trans hc
    injection h with h
    subst h
    decide

theorem rstripCommas_of_last (t : List Char) (h : t.getLast? = some ')') :
    rstripCommas t = t := by
  unfold rstripCommas
  rw [dropWhile_of_head_false, List.reverse_reverse]
  intro c hc
  rw [List.head?_reverse] at hc
  have hh := h.symm.trans hc
  injection hh with hh
  subst hh
  decide

theorem rstripSemis_append (body : List Char) (h : body.getLast? = some ')') :
    rstripSemis (body ++ [';']) = body := by
  unfold rstripSemis
  rw [List.reverse_append]
  have hstep : ([';'].reverse ++ body.reverse).dropWhile (· == ';')
      = body.reverse.dropWhile (· == ';') := by
    simp [List.dropWhile_cons]
  rw [hstep, dropWhile_of_head_false, List.reverse_reverse]
  intro c hc
  rw [List.head?_reverse] at hc
  have hh := h.symm.trans hc
  injection hh with hh
  subst hh
  decide

theorem splitTop_joinTuples (ts : List (List Char)) :
    (∀ t ∈ ts, GoodTuple t) → ts ≠ [] →
      ∀ cur : List Char, (∀ c ∈ cur, pySpace c = true) →
        splitTop (joinTuples ts) 0 cur = ts := by
  induction ts with
  | nil => intro _ h; exact absurd rfl h
  | cons t ts' ih =>
    intro hts _ cur hcur
    obtain ⟨hlen, hhead, hlast, hntc, hdelta⟩ := hts t (by simp)
    have hclean : pyStrip ((t.reverse ++ cur).reverse) = t := by
      rw [List.reverse_append, List.reverse_reverse]
      exact pyStrip_ws_append cur.reverse t (fun c hc => hcur c (by simpa using hc))
        (fun c hc => by
          have h := hhead.symm.trans hc
          injection h with h
          subst h
          decide)
        (fun c hc => by
          have h := hlast.symm.trans hc
          injection h with h
          subst h
          decide)
    cases ts' with
    | nil =>
      rw [joinTuples]
      nth_rewrite 1 [show t = t ++ [] from (List.append_nil t).symm]
      rw [splitTop_through t [] cur 0 hntc, hdelta, splitTop_nil, hclean]
    | cons t2 ts2 =>
      rw [joinTuples,
        splitTop_through t (',' :: ' ' :: joinTuples (t2 :: ts2)) cur 0 hntc, hdelta]
      have hz : (0 : Int) + 0 = 0 := by ring
      rw [hz, splitTop_comma, hclean, splitTop_space,
        ih (fun a ha => hts a (by simp [ha])) (by simp) [' '] (by decide)]

theorem matchMV_shape (table cols J : List Char)
    (htab : table ≠ []) (htabc : ∀ c ∈ table, mvIdentChar c = true)
    (hcols : cols ≠ []) (hcolsc : ')' ∉ cols)
    (hJne : J ≠ []) (hJhead : J.head? = some '(')
    (hJlast : J.getLast? = some ')') (hJlen : 3 ≤ J.length) :
    matchMV ("INSERT INTO ".data ++ (table ++ (" (".data ++ (cols
        ++ (") VALUES ".data ++ (J ++ [';']))))))
      = some (table, cols, J) := by
  have hemp1 : table.isEmpty = false := by
    cases table with
    | nil => exact absurd rfl htab
    | cons a tl => rfl
  have hemp2 : cols.isEmpty = false := by
    cases cols with
    | nil => exact absurd rfl hcols
    | cons a tl => rfl
  have hA : matchCI "INSERT".data
      (("INSERT INTO ".data ++ (table ++ (" (".data ++ (cols
        ++ (") VALUES ".data ++ (J ++ [';'])))))).dropWhile pySpace)
      = some (" INTO ".data ++ (table ++ (" (".data ++ (cols
        ++ (") VALUES ".data ++ (J ++ [';'])))))) := rfl
  have hB : wsPlus (" INTO ".data ++ (table ++ (" (".data ++ (cols
        ++ (") VALUES ".data ++ (J ++ [';']))))))
      = some ("INTO ".data ++ (table ++ (" (".data ++ (cols
        ++ (") VALUES ".data ++ (J ++ [';'])))))) := rfl
  have hC : matchCI "INTO".data ("INTO ".data ++ (table ++ (" (".data ++ (cols
        ++ (") VALUES ".data ++ (J ++ [';']))))))
      = some (' ' :: (table ++ (" (".data ++ (cols
        ++ (") VALUES ".data ++ (J ++ [';'])))))) := rfl
  have hD : wsPlus (' ' :: (table ++ (" (".data ++ (cols
        ++ (") VALUES ".data ++ (J ++ [';']))))))
      = some ((table ++ (" (".data ++ (cols
        ++ (") VALUES ".data ++ (J ++ [';']))))).dropWhile pySpace) := rfl
  have hdw0 : (table ++ (" (".data ++ (cols
        ++ (") VALUES ".data ++ (J ++ [';']))))).dropWhile pySpace
      = table ++ (" (".data ++ (cols ++ (") VALUES ".data ++ (J ++ [';'])))) := by
    apply dropWhile_of_head_false
    intro c hc
    cases table with
    | nil => exact absurd rfl htab
    | cons a tl =>
      have ha : a = c := by simpa using hc
      subst ha
      exact pySpace_eq_false_of_mvIdent (htabc a (by simp))
  have htk1 : (table ++ (" (".data ++ (cols
        ++ (") VALUES ".data ++ (J ++ [';']))))).takeWhile mvIdentChar = table := by
    rw [takeWhile_append_of_all table _ htabc]
    rw [show (" (".data ++ (cols
        ++ (") VALUES ".data ++ (J ++ [';'])))).takeWhile mvIdentChar = [] from rfl,
      List.append_nil]
  have hdw1 : ((table ++ (" (".data ++ (cols
        ++ (") VALUES ".data ++ (J ++ [';']))))).dropWhile mvIdentChar).dropWhile pySpace
      = '(' :: (cols ++ (") VALUES ".data ++ (J ++ [';']))) := by
    rw [dropWhile_append_of_all table _ htabc]
    rfl
  have hE : expectChar '(' ('(' :: (cols ++ (") VALUES ".data ++ (J ++ [';']))))
      = some (cols ++ (") VALUES ".data ++ (J ++ [';']))) := rfl
  have hcolsb : ∀ x ∈ cols, (x != ')') = true := by
    intro x hx
    have : x ≠ ')' := fun he => hcolsc (he ▸ hx)
    simpa using this
  have htk2 : (cols ++ (") VALUES ".data ++ (J ++ [';']))).takeWhile (· != ')')
      = cols := by
    rw [takeWhile_append_of_all cols _ hcolsb]
    rw [show (") VALUES ".data ++ (J ++ [';'])).takeWhile (· != ')') = [] from rfl,
      List.append_nil]
  have hdw2 : (cols ++ (") VALUES ".data ++ (J ++ [';']))).dropWhile (· != ')')
      = ") VALUES ".data ++ (J ++ [';']) := by
    rw [dropWhile_append_of_all cols _ hcolsb]
    rfl
  have hF : expectChar ')' (") VALUES ".data ++ (J ++ [';']))
      = some (" VALUES ".data ++ (J ++ [';'])) := rfl
  have hG : matchCI "VALUES".data
      ((" VALUES ".data ++ (J ++ [';'])).dropWhile pySpace)
      = some (' ' :: (J ++ [';'])) := rfl
  have hs10 : (' ' :: (J ++ [';'])).dropWhile pySpace = J ++ [';'] := by
    rw [show (' ' :: (J ++ [';'])).dropWhile pySpace
        = (J ++ [';']).dropWhile pySpace from by
      rw [List.dropWhile_cons, if_pos (by decide : pySpace ' ' = true)]]
    apply dropWhile_of_head_false
    intro c hc
    cases J with
    | nil => exact absurd rfl hJne
    | cons a tl =>
      have ha : a = c := by simpa using hc
      subst ha
      have : a = '(' := by simpa using hJhead
      subst this
      decide
  have hH : ((J ++ [';']).reverse).dropWhile pySpace = ';' :: J.reverse := by
    rw [List.reverse_append, show ([';'] : List Char).reverse = [';'] from rfl,
      List.singleton_append, List.dropWhile_cons,
      if_neg (by decide : ¬ pySpace ';' = true)]
  have hI : J.reverse.dropWhile pySpace = J.reverse := by
    apply dropWhile_of_head_false
    intro c hc
    rw [List.head?_reverse] at hc
    have h := hJlast.symm.trans hc
    injection h with h
    subst h
    decide
  obtain ⟨tl, hJr⟩ : ∃ tl, J.reverse = ')' :: tl := by
    cases hJr : J.reverse with
    | nil =>
      exfalso
      have : J = [] := by simpa using congrArg List.reverse hJr
      exact hJne this
    | cons a tl =>
      have ha : a = ')' := by
        have hh : J.reverse.head? = some ')' := by rw [List.head?_reverse]; exact hJlast
        rw [hJr] at hh
        simpa using hh
      exact ⟨tl, by rw [ha]⟩
  have hK : (')' :: tl).reverse = J := by
    rw [← hJr, List.reverse_reverse]
  have hI2 : List.dropWhile pySpace (')' :: tl) = ')' :: tl := by
    rw [← hJr]; exact hI
  simp only [matchMV, hA, hB, hC, hD, hdw0, htk1, hemp1, Bool.false_eq_true, if_false,
    hdw1, hE, htk2, hemp2, hdw2, hF, hG, hs10, hH, hJr, hI2, hK]
  rw [if_pos ⟨hJhead, hJlen⟩]

/-- C2: every statement of the exact multi-value INSERT shape expands into
exactly one single-tuple INSERT per value tuple, preserving the table name
and column list and splitting the value list only at parenthesis-depth-zero
commas; every statement the pattern does not match is returned unchanged as
a one-element list. -/
theorem expand_multi_values_spec :
    (∀ (table cols : List Char) (tuples : List (List Char)),
        table ≠ [] → (∀ c ∈ table, mvIdentChar c = true) →
        cols ≠ [] → ')' ∉ cols →
        tuples ≠ [] → (∀ t ∈ tuples, GoodTuple t) →
        _expand_multi_values_insert (mkMultiInsert table cols tuples)
          = tuples.map (mkSingleInsert table cols)) ∧
    (∀ sql : String, matchMV (normalizeMV sql) = none →
        _expand_multi_values_insert sql = [sql]) := by
  constructor
  · intro table cols tuples htab htabc hcols hcolsc htup hts
    have hJne := joinTuples_ne_nil tuples htup hts
    have hJhead := joinTuples_head? tuples htup hts
    have hJlast := joinTuples_getLast? tuples htup hts
    have hJlen := joinTuples_length tuples htup hts
    have hassoc : (mkMultiInsert table cols tuples).data
        = "INSERT INTO ".data ++ (table ++ (" (".data ++ (cols
            ++ (") VALUES ".data ++ (joinTuples tuples ++ [';']))))) := by
      show "INSERT INTO ".data ++ table ++ " (".data ++ cols ++ ") VALUES ".data
          ++ joinTuples tuples ++ [';'] = _
      simp [List.append_assoc]
    have hBne1 : (" (".data ++ (cols ++ (") VALUES ".data
        ++ (joinTuples tuples ++ [';'])))) ≠ ([] : List Char) := by simp
    have hBne2 : (") VALUES ".data ++ (joinTuples tuples ++ [';'])) ≠ ([] : List Char) := by
      simp
    have hlastRA : ("INSERT INTO ".data ++ (table ++ (" (".data ++ (cols
        ++ (") VALUES ".data ++ (joinTuples tuples ++ [';'])))))).getLast? = some ';' := by
      rw [List.getLast?_append_of_ne_nil _ (by simp),
        List.getLast?_append_of_ne_nil _ hBne1,
        List.getLast?_append_of_ne_nil _ (by simp),
        List.getLast?_append_of_ne_nil _ hBne2,
        List.getLast?_append_of_ne_nil _ (by simp),
        List.getLast?_concat]
    have hstripRA : pyStrip ("INSERT INTO ".data ++ (table ++ (" (".data ++ (cols
        ++ (") VALUES ".data ++ (joinTuples tuples ++ [';']))))))
        = "INSERT INTO ".data ++ (table ++ (" (".data ++ (cols
            ++ (") VALUES ".data ++ (joinTuples tuples ++ [';']))))) := by
      apply pyStrip_of_ends
      · intro c hc
        have h0 : ("INSERT INTO ".data ++ (table ++ (" (".data ++ (cols
            ++ (") VALUES ".data ++ (joinTuples tuples ++ [';'])))))).head?
            = some 'I' := rfl
        have h := h0.symm.trans hc
        injection h with h
        subst h
        decide
      · intro c hc
        have h := hlastRA.symm.trans hc
        injection h with h
        subst h
        decide
    have hlastBody : ("INSERT INTO ".data ++ (table ++ (" (".data ++ (cols
        ++ (") VALUES ".data ++ joinTuples tuples))))).getLast? = some ')' := by
      rw [List.getLast?_append_of_ne_nil _ (by simp [hJne]),
        List.getLast?_append_of_ne_nil _ (by simp [hJne]),
        List.getLast?_append_of_ne_nil _ (by simp [hJne]),
        List.getLast?_append_of_ne_nil _ (by simp [hJne]),
        List.getLast?_append_of_ne_nil _ hJne]
      exact hJlast
    have hsplitRA : "INSERT INTO ".data ++ (table ++ (" (".data ++ (cols
        ++ (") VALUES ".data ++ (joinTuples tuples ++ [';'])))))
        = ("INSERT INTO ".data ++ (table ++ (" (".data ++ (cols
            ++ (") VALUES ".data ++ joinTuples tuples))))) ++ [';'] := by
      simp [List.append_assoc]
    have hnorm : normalizeMV (mkMultiInsert table cols tuples)
        = "INSERT INTO ".data ++ (table ++ (" (".data ++ (cols
            ++ (") VALUES ".data ++ (joinTuples tuples ++ [';']))))) := by
      unfold normalizeMV
      rw [hassoc, hstripRA, hsplitRA, rstripSemis_append _ hlastBody, ← hsplitRA]
    have hmatch : matchMV (normalizeMV (mkMultiInsert table cols tuples))
        = some (table, cols, joinTuples tuples) := by
      rw [hnorm]
      exact matchMV_shape table cols (joinTuples tuples) htab htabc hcols hcolsc
        hJne hJhead hJlast hJlen
    have hstripJ : pyStrip (joinTuples tuples) = joinTuples tuples :=
      pyStrip_tuple _ hJhead hJlast
    have hsplit : splitTop (joinTuples tuples) 0 [] = tuples :=
      splitTop_joinTuples tuples hts htup [] (by simp)
    have hfil : tuples.filter (fun p => p ≠ []) = tuples := by
      apply List.filter_eq_self.mpr
      intro a ha
      obtain ⟨hlen, -, -, -, -⟩ := hts a ha
      have : a ≠ [] := by
        intro h
        rw [h] at hlen
        simp at hlen
      simpa using this
    rw [_expand_multi_values_insert, hmatch]
    simp only [hstripJ, hsplit, hfil]
    apply List.map_congr_left
    intro p hp
    obtain ⟨-, hph, hpl, -, -⟩ := hts p hp
    rw [pyStrip_tuple p hph hpl, rstripCommas_of_last p hpl]
    rfl
  · intro sql h
    rw [_expand_multi_values_insert, h]

/-- Concrete instantiation of `expand_multi_values_spec`: the documented
two-tuple example, a nested-parenthesis tuple whose inner comma does not
split, and a non-matching statement passing through unchanged. -/
theorem expand_multi_values_spec_witness :
    _expand_multi_values_insert "INSERT INTO T (A,B) VALUES (1,2), (3,4);"
      = ["INSERT INTO T (A,B) VALUES (1,2);", "INSERT INTO T (A,B) VALUES (3,4);"] ∧
    _expand_multi_values_insert "INSERT INTO T (A,B) VALUES (1,f(2,3)), (4,5);"
      = ["INSERT INTO T (A,B) VALUES (1,f(2,3));",
         "INSERT INTO T (A,B) VALUES (4,5);"] ∧
    _expand_multi_values_insert "UPDATE T SET A = 1;" = ["UPDATE T SET A = 1;"] := by
  refine ⟨?_, ?_, ?_⟩
  · have h := expand_multi_values_spec.1 "T".data "A,B".data
      ["(1,2)".data, "(3,4)".data]
      (by decide) (by decide) (by decide) (by decide) (by decide) (by decide)
    rw [show ("INSERT INTO T (A,B) VALUES (1,2), (3,4);" : String)
        = mkMultiInsert "T".data "A,B".data ["(1,2)".data, "(3,4)".data] from by decide]
    rw [h]
    decide
  · have h := expand_multi_values_spec.1 "T".data "A,B".data
      ["(1,f(2,3))".data, "(4,5)".data]
      (by decide) (by decide) (by decide) (by decide) (by decide) (by decide)
    rw [show ("INSERT INTO T (A,B) VALUES (1,f(2,3)), (4,5);" : String)
        = mkMultiInsert "T".data "A,B".data ["(1,f(2,3))".data, "(4,5)".data] from by
      decide]
    rw [h]
    decide
  · exact expand_multi_values_spec.2 "UPDATE T SET A = 1;" (by decide)

end FirebirdAssistant
